import Mathlib

/-!
Shallow embedding of the "Universal Media Resolver" backend
(`src/backend/link_signer.py`, `src/backend/main.py`,
`src/Backend/media_resolver.py`) and verification of the frozen claims
about it.

Modelling conventions:
* Python scalar values occurring in the relevant records are modelled by
  `Val` (strings, integers, `None`).  Numeric values (`filesize`, `fps`,
  `tbr`, `height`, ...) are modelled as integers; float rendering
  differences do not matter for any claim.
* Python `dict`s are modelled as association lists (`Dict`), first
  occurrence of a key wins, insertion order preserved.
* Machine time is an explicit `Nat` parameter (seconds since the epoch),
  passed to each operation that reads the clock.
* The replay cache (`LinkSigner.verified_cache`) is a Python `set` of
  strings.  A set is modelled as a `List String` of its elements together
  with an explicit enumeration function `enum` standing for CPython's
  `list(s)` iteration order.  CPython only guarantees that `list(s)` is
  *some* arrangement of the elements (for `str` elements it depends on
  SipHash and the randomized hash seed), so theorems about the cache
  quantify over every `enum` that is a permutation, and counterexamples
  may pick any concrete permutation as a possible iteration order.
* SHA-256 hashing of the token string is modelled by an injective
  serialization `tokenHash`; no claim depends on any property of the
  hash beyond "equal tokens hash equally".
-/

namespace Video

/-- A Python scalar value as it occurs in the format records. -/
inductive Val where
  | str (s : String)
  | int (n : Int)
  | none
deriving DecidableEq, Repr

/-- String emptiness (`not s` for a Python `str`), via decidable
equality (the position-based `String.isEmpty` does not kernel-reduce). -/
def pyStrEmpty (s : String) : Bool := s == ""

/-- Python truthiness for the values we model: `None`, `""` and `0` are
falsy, everything else is truthy. -/
def Val.truthy : Val → Bool
  | .str s => !(pyStrEmpty s)
  | .int n => n != 0
  | .none => false

/-- Rendering of a value inside an f-string (`f"{v}"`). -/
def Val.fstr : Val → String
  | .str s => s
  | .int n => toString n
  | .none => "None"

/-- A Python dict, modelled as an association list (unique keys by
construction at every use site, insertion order preserved). -/
abbrev Dict := List (String × Val)

/-- `d[k]` as an `Option`: the value of the first binding of `k`. -/
def dget (d : Dict) (k : String) : Option Val :=
  (d.find? (fun kv => kv.1 == k)).map (fun kv => kv.2)

/-- Python `d.get(k, default)`. -/
def dgetD (d : Dict) (k : String) (v : Val) : Val :=
  (dget d k).getD v

/-- Python `d.get(k)` (default `None`). -/
def dgetN (d : Dict) (k : String) : Val :=
  (dget d k).getD Val.none

/-! ## `src/backend/link_signer.py` — `LinkSigner` -/

/-- Environment-driven configuration of `LinkSigner.__init__`:
`secret_key` from `JWT_SECRET`, `token_expire_minutes` from
`TOKEN_EXPIRE_MINUTES` (default 30). -/
structure SignerConfig where
  secret_key : String
  token_expire_minutes : Nat
deriving DecidableEq, Repr

/-- `self.cache_max_size = 1000` in `LinkSigner.__init__`. -/
def cache_max_size : Nat := 1000

/-- `self.cache_ttl = 60` — declared in `__init__` but never read by any
other method. -/
def cache_ttl : Nat := 60

/-- The JWT payload built by `sign_url` (and, more generally, any payload
a well-signed token may carry: each registered claim may be absent). -/
structure Payload where
  url : Option String
  exp : Option Nat
  iat : Option Nat
  nbf : Option Nat
  jti : String
  metadata : List (String × String)
deriving DecidableEq, Repr

/-- A token string, as seen by `verify_token`: either not a decodable JWT
at all (`malformed`), or a JWT whose signature was produced with `secret`.
PyJWT accepts the signature exactly when `secret` equals the verifier's
`secret_key` (HMAC-SHA256 forgery is outside the model). -/
inductive Token where
  | malformed (raw : String)
  | signed (payload : Payload) (secret : String)
deriving DecidableEq, Repr

/-- Stand-in for `hashlib.sha256(token.encode()).hexdigest()`: an
injective serialization of the token string.  No claim uses any property
of the hash other than it being a function of the token. -/
def tokenHash : Token → String
  | .malformed raw => "raw:" ++ raw
  | .signed p secret =>
    "tok:" ++ secret ++ "|" ++ p.url.getD "<none>" ++ "|" ++
      (p.exp.map toString).getD "<none>" ++ "|" ++
      (p.iat.map toString).getD "<none>" ++ "|" ++
      (p.nbf.map toString).getD "<none>" ++ "|" ++ p.jti ++ "|" ++
      p.metadata.foldr (fun kv acc => kv.1 ++ "=" ++ kv.2 ++ ";" ++ acc) ""

/-- `_generate_token_id(url)`: sha256 of `f"{url}:{timestamp_ms}"`
truncated to 16 hex chars; modelled by the hash preimage itself (no claim
depends on the digest). -/
def generate_token_id (url : String) (timestamp_ms : Nat) : String :=
  url ++ ":" ++ toString timestamp_ms

/-- `LinkSigner.sign_url(url, metadata)` at wall-clock time `now`
(seconds): payload with `exp = now + token_expire_minutes` minutes,
`iat = nbf = now`, signed with the configured secret. -/
def sign_url (cfg : SignerConfig) (now : Nat) (url : String)
    (metadata : List (String × String)) : Token :=
  Token.signed
    { url := some url
      exp := some (now + 60 * cfg.token_expire_minutes)
      iat := some now
      nbf := some now
      jti := generate_token_id url (now * 1000)
      metadata := metadata }
    cfg.secret_key

/-- `LinkSigner._add_to_cache(token_hash)`:
`set.add`, then if the size exceeds `cache_max_size`, keep
`list(self.verified_cache)[-cache_max_size:]`.  `enum` is the iteration
order CPython uses for `list(set)` (an arbitrary permutation). -/
def add_to_cache (enum : List String → List String)
    (cache : List String) (h : String) : List String :=
  let c := if h ∈ cache then cache else cache ++ [h]
  if c.length > cache_max_size then
    (enum c).drop (c.length - cache_max_size)
  else c

/-- PyJWT 2.x `_validate_nbf`, run only when the `nbf` claim is present:
rejects (`jwt.ImmatureSignatureError`) iff `nbf > now`. -/
def nbf_rejects (p : Payload) (now : Nat) : Bool :=
  match p.nbf with
  | some nbf => now < nbf
  | Option.none => false

/-- PyJWT 2.x `_validate_exp`, run only when the `exp` claim is present:
rejects (`jwt.ExpiredSignatureError`) iff `exp <= now`. -/
def exp_rejects (p : Payload) (now : Nat) : Bool :=
  match p.exp with
  | some exp => exp ≤ now
  | Option.none => false

/-- `LinkSigner.verify_token(token)` at time `now`.  Returns the result
(`None` on any failure) together with the replay cache after the call.

The `require_exp`/`require_iat`/`require_nbf` keys the code passes in
`options` are PyJWT 1.x API.  This program runs on PyJWT 2.x
(`jwt.encode` must return `str` for `main.py`'s
`f"/download/{token}"`), and 2.x silently ignores those keys: claim
presence is enforced only through `options["require"]`, which is not
passed (so `[]`).  Hence a missing `exp`/`iat`/`nbf` claim is NOT
rejected; each timestamp claim is validated only when present
(`_validate_iat` only coerces `iat` to an integer, which cannot fail in
this model, so it has no branch here).  Failure branches, in the order
PyJWT runs them: signature mismatch and undecodable tokens
(`jwt.InvalidTokenError`), `nbf > now` when `nbf` is present,
`exp <= now` when `exp` is present, then the replay-cache membership
test.  On the remaining path the hash is recorded via `_add_to_cache`
and `payload.get('url')` is returned. -/
def verify_token (cfg : SignerConfig) (enum : List String → List String)
    (cache : List String) (now : Nat) (t : Token) :
    Option String × List String :=
  let token_hash := tokenHash t
  match t with
  | .malformed _ => (Option.none, cache)
  | .signed p secret =>
    if secret ≠ cfg.secret_key then (Option.none, cache)
    else if nbf_rejects p now then (Option.none, cache)
    else if exp_rejects p now then (Option.none, cache)
    else if token_hash ∈ cache then (Option.none, cache)
    else (p.url, add_to_cache enum cache token_hash)

/-! ## `src/backend/main.py` — `download_media` -/

/-- The possible HTTP responses of the `/download/{token}` route.
`streamAttachment` is never produced by the code; it is the response
shape the specification describes (a `StreamingResponse` in fixed-size
chunks with attachment headers) and is needed to state that claim. -/
inductive DLResponse where
  | redirect (url : String) (status : Nat)
  | httpError (status : Nat) (detail : String)
  | streamAttachment (chunkSize : Nat) (filename : String) (contentType : String)
deriving DecidableEq, Repr

/-- `download_media(token)`:
`verify_token`, then `if not url: raise HTTPException(404, ...)`,
else `RedirectResponse(url, status_code=302)`.
The `raise HTTPException(404, ...)` is caught by the surrounding
`except Exception as e` (FastAPI's `HTTPException` subclasses
`Exception`), which re-raises `HTTPException(400, str(e))`;
`str` of a starlette `HTTPException` is `"{status_code}: {detail}"`. -/
def download_media (cfg : SignerConfig) (enum : List String → List String)
    (cache : List String) (now : Nat) (t : Token) :
    DLResponse × List String :=
  match verify_token cfg enum cache now t with
  | (some url, c) =>
    if pyStrEmpty url then
      (DLResponse.httpError 400 "404: Invalid or expired token", c)
    else
      (DLResponse.redirect url 302, c)
  | (Option.none, c) => (DLResponse.httpError 400 "404: Invalid or expired token", c)

/-! ## `src/Backend/media_resolver.py` — `MediaResolver` -/

/-- One element of `info['entries']`; only `entry.get('formats', [])` is
read. -/
structure Entry where
  formats : Option (List Dict)
deriving DecidableEq, Repr

/-- The fields of the yt-dlp `info` dict that `MediaResolver` reads.
A field is `Option.none` when the key is absent (so Python's `.get`
default applies); `formats`/`entries` are `some _` when the key is
present with a list value (a present non-list value would raise in
Python and is outside the model). -/
structure Info where
  formats : Option (List Dict)
  entries : Option (List Entry)
  url : Option Val
  ext : Option Val
  id : Option Val
  title : Option Val
  duration : Option Val
  thumbnail : Option Val
  uploader : Option Val
  upload_date : Option Val
  view_count : Option Val
  description : Option Val
  extractor : Option Val
  webpage_url : Option Val
deriving DecidableEq, Repr

/-- `info.get(k, default)` for the scalar `Info` fields. -/
def igetD (v : Option Val) (default : Val) : Val :=
  v.getD default

/-- `MediaResolver._extract_quality(fmt)`: `f"{height}p"` if `height` is
truthy, else `f"{tbr}k"` if `tbr` is truthy, else the raw
`format_note` value if truthy, else `'unknown'`.  The `format_note`
branch returns the stored value itself, not a rendering of it. -/
def extract_quality (fmt : Dict) : Val :=
  if (dgetN fmt "height").truthy then Val.str ((dgetN fmt "height").fstr ++ "p")
  else if (dgetN fmt "tbr").truthy then Val.str ((dgetN fmt "tbr").fstr ++ "k")
  else if (dgetN fmt "format_note").truthy then dgetN fmt "format_note"
  else Val.str "unknown"

/-- The dict-comprehension `{k: v for k, v in format_info.items() if v is
not None}`. -/
def cleanNone (d : Dict) : Dict :=
  d.filter (fun kv => kv.2 ≠ Val.none)

/-- The `format_info` dict built for one raw format record in
`_process_formats`, after the `None`-dropping comprehension. -/
def format_info_of (fmt : Dict) : Dict :=
  cleanNone
    [("format_id", dgetD fmt "format_id" (Val.str "")),
     ("ext", dgetD fmt "ext" (Val.str "")),
     ("url", dgetN fmt "url"),
     ("filesize", dgetD fmt "filesize" (Val.int 0)),
     ("quality", extract_quality fmt),
     ("resolution", dgetD fmt "resolution" (Val.str "")),
     ("fps", dgetD fmt "fps" (Val.int 0)),
     ("vcodec", dgetD fmt "vcodec" (Val.str "")),
     ("acodec", dgetD fmt "acodec" (Val.str "")),
     ("format_note", dgetD fmt "format_note" (Val.str ""))]

/-- The synthesized descriptor appended when no structured format was
found but `info.get('url')` is truthy. -/
def direct_format (info : Info) : Dict :=
  [("format_id", Val.str "direct"),
   ("ext", igetD info.ext (Val.str "mp4")),
   ("url", igetD info.url Val.none),
   ("quality", Val.str "best"),
   ("resolution", Val.str "unknown")]

/-- `MediaResolver._process_formats(info)`. -/
def process_formats (info : Info) : List Dict :=
  let format_list : List Dict :=
    match info.formats with
    | some l => l
    | Option.none =>
      match info.entries with
      | some entries =>
        match entries with
        | e :: _ => e.formats.getD []
        | [] => []
      | Option.none => []
  let formats :=
    (format_list.filter (fun fmt => (dgetN fmt "url").truthy)).map format_info_of
  if formats.isEmpty && (igetD info.url Val.none).truthy then
    [direct_format info]
  else formats

/-- The `'height' in fmt and fmt['height']` test of
`_filter_by_quality`. -/
def heightOk (d : Dict) : Bool :=
  match dget d "height" with
  | some v => v.truthy
  | Option.none => false

/-- `height` values (when present) are machine integers; decidable form
used to state C7's restriction to inputs on which Python's sort key
cannot raise `TypeError`. -/
def heightInt (d : Dict) : Bool :=
  match dget d "height" with
  | some (Val.str _) => false
  | _ => true

/-- Integer reading of a value, for the sort key
`abs(x.get('height', 0) - target_height)`.  Heights produced by yt-dlp
are integers; a non-integer height would raise `TypeError` in Python, so
theorems about the numeric path restrict to integer heights. -/
def pyIntOf : Val → Int
  | .int n => n
  | .str _ => 0
  | .none => 0

/-- The numeric-path sort key of `_filter_by_quality`. -/
def heightDist (target : Int) (d : Dict) : Nat :=
  (pyIntOf (dgetD d "height" (Val.int 0)) - target).natAbs

/-- Strip surrounding whitespace from a character list (Python `int()`
ignores surrounding whitespace). -/
def pyTrim (cs : List Char) : List Char :=
  ((cs.dropWhile Char.isWhitespace).reverse.dropWhile Char.isWhitespace).reverse

/-- A non-empty all-digit character list, as a number. -/
def digitsToNat (cs : List Char) : Option Nat :=
  if cs ≠ [] ∧ cs.all Char.isDigit then
    some (cs.foldl (fun acc c => 10 * acc + (c.toNat - 48)) 0)
  else Option.none

/-- Python `int(s)` on the strings reachable here: optional surrounding
whitespace, optional sign, decimal digits (`ValueError` ⇒ `none`).
CPython also accepts underscore separators and non-ASCII digits; those
inputs are outside the model. -/
def pyIntParse (s : String) : Option Int :=
  match pyTrim s.data with
  | '-' :: rest => (digitsToNat rest).map (fun n => -(n : Int))
  | '+' :: rest => (digitsToNat rest).map (fun n => (n : Int))
  | cs => (digitsToNat cs).map (fun n => (n : Int))

/-- `quality.lower().replace('p', '')`: lowercase every character, then
remove every occurrence of `'p'` (the pattern is a single character, so
`.replace` is a character filter).  Modelled character-wise because the
position-based `String.toLower`/`String.replace` do not kernel-reduce. -/
def normalizeQuality (quality : String) : String :=
  String.mk ((quality.data.map Char.toLower).filter (fun c => c != 'p'))

/-- `MediaResolver._filter_by_quality(formats, quality)`.  Python's
`list.sort(key=...)` is a stable sort; it is modelled by `mergeSort`
(also stable, and a stable sort by a total preorder key is unique). -/
def filter_by_quality (formats : List Dict) (quality : String) : List Dict :=
  if pyStrEmpty quality then formats
  else
    let q := normalizeQuality quality
    match pyIntParse q with
    | some target =>
      let filtered := formats.filter heightOk
      if filtered.isEmpty then formats
      else
        (filtered.mergeSort
          (fun a b => heightDist target a ≤ heightDist target b)).take 5
    | Option.none =>
      if q = "best" then
        formats.filter (fun f =>
          dgetD f "quality" (Val.str "") == Val.str "best" ||
          dgetD f "format_id" (Val.str "") == Val.str "best")
      else if q = "worst" then
        formats.filter (fun f =>
          dgetD f "quality" (Val.str "") == Val.str "worst" ||
          dgetD f "format_id" (Val.str "") == Val.str "worst")
      else if q = "audio" then
        formats.filter (fun f =>
          (dgetN f "acodec").truthy && !(dgetN f "vcodec").truthy)
      else if q = "video" then
        formats.filter (fun f =>
          (dgetN f "vcodec").truthy && !(dgetN f "acodec").truthy)
      else formats

/-- `'mp4'/'mp3'/'best'/'worst'` → yt-dlp format selection string
(`MediaResolver.format_priorities`, first list element). -/
def format_priorities : List (String × String) :=
  [("mp4", "bestvideo[ext=mp4]+bestaudio[ext=m4a]/best[ext=mp4]/best"),
   ("mp3", "bestaudio[ext=m4a]/bestaudio/best"),
   ("best", "best"),
   ("worst", "worst")]

/-- `if format_preference and format_preference in self.format_priorities:
ydl_opts['format'] = ...` — the format string handed to the backend, if
any. -/
def ydlFormat (format_preference : Option String) : Option String :=
  match format_preference with
  | some f =>
    if pyStrEmpty f then Option.none
    else (format_priorities.find? (fun kv => kv.1 == f)).map (fun kv => kv.2)
  | Option.none => Option.none

/-- The dict returned by `resolve` (11 keys) and by `_generic_resolve`
(7 keys).  Fields absent from the generic-fallback dict are `Option`. -/
structure MediaOut where
  id : Val
  title : Val
  duration : Val
  thumbnail : Val
  uploader : Option Val
  upload_date : Option Val
  view_count : Option Val
  description : Option Val
  formats : List Dict
  extractor : Val
  webpage_url : Val
deriving DecidableEq, Repr

/-- `info.get('description', '')[:500]`.  Slicing a non-string would
raise `TypeError` in Python; such inputs are outside the model. -/
def pySlice500 : Val → Val
  | .str s => Val.str (String.mk (s.data.take 500))
  | v => v

/-- The success dict built by `resolve` from a truthy backend `info`:
formats are `_process_formats(info)`, then `_filter_by_quality` when
`quality_preference` is truthy. -/
def buildResolveOut (url : String) (info : Info)
    (quality_preference : Option String) : MediaOut :=
  let formats := process_formats info
  let formats :=
    match quality_preference with
    | some q => if pyStrEmpty q then formats else filter_by_quality formats q
    | Option.none => formats
  { id := igetD info.id (Val.str "")
    title := igetD info.title (Val.str "Unknown")
    duration := igetD info.duration (Val.int 0)
    thumbnail := igetD info.thumbnail (Val.str "")
    uploader := some (igetD info.uploader (Val.str ""))
    upload_date := some (igetD info.upload_date (Val.str ""))
    view_count := some (igetD info.view_count (Val.int 0))
    description := some (pySlice500 (igetD info.description (Val.str "")))
    formats := formats
    extractor := igetD info.extractor (Val.str "generic")
    webpage_url := igetD info.webpage_url (Val.str url) }

/-- Python `try: body except Exception as e: handler(e)`. -/
def pyTryExcept {α : Type} (body : Except String α)
    (handler : String → Except String α) : Except String α :=
  match body with
  | .ok a => .ok a
  | .error e => handler e

/-- `MediaResolver.resolve(url, format_preference, quality_preference)`.
The external collaborators are parameters:
`backend fmt url` is `ydl.extract_info(url, download=False)` under
`ydl_opts['format'] = fmt` — `.error` when it raises, `.ok Option.none`
when it returns falsy `info`, `.ok (some info)` otherwise; and
`fallback url` is `self._generic_resolve(url)` (network + HTML scan) —
`.error` when it raises.  The body mirrors the source:
the falsy-`info` branch returns `_generic_resolve(url)` from inside the
`try`, so an exception there is caught by the same `except`, which
retries `_generic_resolve` once more and then raises
`f"Failed to resolve URL: {str(e)}"`. -/
def resolve (backend : Option String → String → Except String (Option Info))
    (fallback : String → Except String MediaOut) (url : String)
    (format_preference : Option String) (quality_preference : Option String) :
    Except String MediaOut :=
  pyTryExcept
    (match backend (ydlFormat format_preference) url with
     | .error e => .error e
     | .ok Option.none => fallback url
     | .ok (some info) => .ok (buildResolveOut url info quality_preference))
    (fun e =>
      pyTryExcept (fallback url)
        (fun _ => .error ("Failed to resolve URL: " ++ e)))

/-- The generic-fallback result dict, re-read as an `info` dict (it has a
`'formats'` key and no `'entries'`/`'url'`/`'ext'` keys). Used only to
state claim C4, which asserts the fallback result is passed through the
Normalizer. -/
def infoOfMediaOut (m : MediaOut) : Info :=
  { formats := some m.formats
    entries := Option.none
    url := Option.none
    ext := Option.none
    id := some m.id
    title := some m.title
    duration := some m.duration
    thumbnail := some m.thumbnail
    uploader := m.uploader
    upload_date := m.upload_date
    view_count := m.view_count
    description := m.description
    extractor := some m.extractor
    webpage_url := some m.webpage_url }

/-- Modelled from the spec: the resolution pipeline claim C4 describes —
identical to `resolve` except that on the fallback success path, too, the
raw result "is passed through the Normalizer and then, when a quality
preference was given, through the Quality Selector".  Error paths match
the code so that the comparison isolates the normalization question. -/
def resolveSpecC4 (backend : Option String → String → Except String (Option Info))
    (fallback : String → Except String MediaOut) (url : String)
    (format_preference : Option String) (quality_preference : Option String) :
    Except String MediaOut :=
  let renorm : MediaOut → MediaOut := fun m =>
    let formats := process_formats (infoOfMediaOut m)
    let formats :=
      match quality_preference with
      | some q => if pyStrEmpty q then formats else filter_by_quality formats q
      | Option.none => formats
    { m with formats := formats }
  match backend (ydlFormat format_preference) url with
  | .ok (some info) => .ok (buildResolveOut url info quality_preference)
  | .ok Option.none =>
    match fallback url with
    | .ok m => .ok (renorm m)
    | .error g => .error ("Failed to resolve URL: " ++ g)
  | .error e =>
    match fallback url with
    | .ok m => .ok (renorm m)
    | .error _ => .error ("Failed to resolve URL: " ++ e)

/-! ## Concrete fixtures used by witnesses and counterexamples -/

/-- The configuration from the environment defaults:
`JWT_SECRET = 'default-secret-change-me'`, `TOKEN_EXPIRE_MINUTES = '30'`. -/
def cfgDefault : SignerConfig := ⟨"default-secret-change-me", 30⟩

/-- A full replay cache: `cache_max_size` pairwise-distinct hash strings
(the string of `n+1` letters `a` for `n < 1000`). -/
def bigCache : List String :=
  (List.range cache_max_size).map (fun n => String.mk (List.replicate (n + 1) 'a'))

/-- An `info` dict with no structured formats but a direct `url`
(exercises the synthesized `'direct'` descriptor). -/
def infoDirect : Info :=
  { formats := Option.none, entries := Option.none,
    url := some (Val.str "http://a/b.mp4"), ext := some (Val.str "mp4"),
    id := Option.none, title := Option.none, duration := Option.none,
    thumbnail := Option.none, uploader := Option.none,
    upload_date := Option.none, view_count := Option.none,
    description := Option.none, extractor := Option.none,
    webpage_url := Option.none }

/-- A typical `_generic_resolve` success value: one `<video><source>`
hit, the 7-key result dict (no `uploader`/`upload_date`/`view_count`/
`description` keys). -/
def mGeneric : MediaOut :=
  { id := Val.str "abc12345"
    title := Val.str "Some Page"
    duration := Val.int 0
    thumbnail := Val.str ""
    uploader := Option.none
    upload_date := Option.none
    view_count := Option.none
    description := Option.none
    formats := [[("format_id", Val.str "video"), ("ext", Val.str "mp4"),
                 ("url", Val.str "http://e.com/v.mp4"),
                 ("quality", Val.str "unknown"), ("resolution", Val.str "")]]
    extractor := Val.str "generic"
    webpage_url := Val.str "http://e.com/page" }

/-- `mGeneric` with its format record re-processed by
`_process_formats` (what claim C4's pipeline would produce). -/
def mGenericNormed : MediaOut :=
  { mGeneric with
    formats := [[("format_id", Val.str "video"), ("ext", Val.str "mp4"),
                 ("url", Val.str "http://e.com/v.mp4"),
                 ("filesize", Val.int 0), ("quality", Val.str "unknown"),
                 ("resolution", Val.str ""), ("fps", Val.int 0),
                 ("vcodec", Val.str ""), ("acodec", Val.str ""),
                 ("format_note", Val.str "")]] }

/-- A primary backend that raises (`yt_dlp` `DownloadError`). -/
def backendFail : Option String → String → Except String (Option Info) :=
  fun _ _ => .error "DownloadError: Unsupported URL"

/-- A generic fallback that succeeds with `mGeneric`. -/
def fallbackOk : String → Except String MediaOut :=
  fun _ => .ok mGeneric

/-! ## Helper lemmas -/

lemma Val.ne_none_of_truthy {v : Val} (h : v.truthy = true) : v ≠ Val.none := by
  cases v <;> simp_all [Val.truthy]

/-- Looking a key up after the `None`-dropping comprehension: if the key's
(unique) binding is not `None`, it survives. -/
lemma dget_cleanNone_of_unique (l : Dict) (k : String) (v : Val)
    (h1 : dget l k = some v) (h2 : v ≠ Val.none)
    (h3 : ∀ p ∈ l, p.1 = k → p.2 = v) :
    dget (cleanNone l) k = some v := by
  induction l with
  | nil => simp [dget] at h1
  | cons a t ih =>
    obtain ⟨k1, v1⟩ := a
    by_cases hk : (k1 == k) = true
    · have hav : v1 = v := h3 (k1, v1) (by simp) (by simpa using hk)
      subst hav
      have hstep : cleanNone ((k1, v1) :: t) = (k1, v1) :: cleanNone t := by
        simp [cleanNone, List.filter_cons, h2]
      rw [hstep]
      simp [dget, List.find?_cons, hk]
    · have hk' : (k1 == k) = false := by simpa using hk
      have h1t : dget t k = some v := by
        simpa [dget, List.find?_cons, hk'] using h1
      have h3t : ∀ p ∈ t, p.1 = k → p.2 = v := fun p hp hpk => h3 p (by simp [hp]) hpk
      have iht := ih h1t h3t
      by_cases hn : v1 = Val.none
      · have hstep : cleanNone ((k1, v1) :: t) = cleanNone t := by
          simp [cleanNone, List.filter_cons, hn]
        rw [hstep]; exact iht
      · have hstep : cleanNone ((k1, v1) :: t) = (k1, v1) :: cleanNone t := by
          simp [cleanNone, List.filter_cons, hn]
        rw [hstep]
        simpa [dget, List.find?_cons, hk'] using iht

/-- A key absent before the comprehension is absent after it. -/
lemma dget_cleanNone_none (l : Dict) (k : String)
    (h : dget l k = Option.none) :
    dget (cleanNone l) k = Option.none := by
  have h' : l.find? (fun kv => kv.1 == k) = Option.none := by
    simpa [dget] using h
  have hall := List.find?_eq_none.mp h'
  have : (cleanNone l).find? (fun kv => kv.1 == k) = Option.none :=
    List.find?_eq_none.mpr fun x hx => hall x (List.mem_of_mem_filter hx)
  simp [dget, this]

/-- `verify_token` on a well-signed token that passes the (per-claim,
only-when-present) `nbf`/`exp` validations, whose hash is not yet
cached: the recording path. -/
lemma verify_token_accepts (cfg : SignerConfig) (enum : List String → List String)
    (cache : List String) (now : Nat) (p : Payload)
    (h1 : nbf_rejects p now = false) (h2 : exp_rejects p now = false)
    (hmem : tokenHash (Token.signed p cfg.secret_key) ∉ cache) :
    verify_token cfg enum cache now (Token.signed p cfg.secret_key) =
      (p.url, add_to_cache enum cache (tokenHash (Token.signed p cfg.secret_key))) := by
  unfold verify_token
  dsimp only
  simp [h1, h2, hmem]

/-- `verify_token` on a well-signed token with all registered claims
present (as `sign_url` mints them), inside the validity window, whose
hash is not yet cached: the success path. -/
lemma verify_token_success (cfg : SignerConfig) (enum : List String → List String)
    (cache : List String) (now : Nat) (p : Payload) (e i nb : Nat)
    (he : p.exp = some e) (_hi : p.iat = some i) (hn : p.nbf = some nb)
    (hnow1 : now < e) (hnow2 : nb ≤ now)
    (hmem : tokenHash (Token.signed p cfg.secret_key) ∉ cache) :
    verify_token cfg enum cache now (Token.signed p cfg.secret_key) =
      (p.url, add_to_cache enum cache (tokenHash (Token.signed p cfg.secret_key))) := by
  have h1 : nbf_rejects p now = false := by
    simp only [nbf_rejects, hn, decide_eq_false_iff_not]
    omega
  have h2 : exp_rejects p now = false := by
    simp only [exp_rejects, he, decide_eq_false_iff_not]
    omega
  exact verify_token_accepts cfg enum cache now p h1 h2 hmem

/-- `verify_token` on a well-signed in-window token whose hash is already
cached: the replay branch. -/
lemma verify_token_replay (cfg : SignerConfig) (enum : List String → List String)
    (cache : List String) (now : Nat) (p : Payload) (e i nb : Nat)
    (he : p.exp = some e) (_hi : p.iat = some i) (hn : p.nbf = some nb)
    (hnow1 : now < e) (hnow2 : nb ≤ now)
    (hmem : tokenHash (Token.signed p cfg.secret_key) ∈ cache) :
    verify_token cfg enum cache now (Token.signed p cfg.secret_key) =
      (Option.none, cache) := by
  have h1 : nbf_rejects p now = false := by
    simp only [nbf_rejects, hn, decide_eq_false_iff_not]
    omega
  have h2 : exp_rejects p now = false := by
    simp only [exp_rejects, he, decide_eq_false_iff_not]
    omega
  unfold verify_token
  dsimp only
  simp [h1, h2, hmem]

/-- `_add_to_cache` below the size cap: a fresh hash is appended and no
eviction happens. -/
lemma add_to_cache_below_cap (enum : List String → List String)
    (cache : List String) (h : String) (hmem : h ∉ cache)
    (hlen : cache.length < cache_max_size) :
    add_to_cache enum cache h = cache ++ [h] := by
  unfold add_to_cache
  simp only [hmem, if_false, ite_false]
  simp
  intro hcontra
  omega

/-- `_add_to_cache` keeps the cache within the cap, for every set
iteration order. -/
lemma add_to_cache_length_le (enum : List String → List String)
    (hperm : ∀ l, (enum l).Perm l) (cache : List String) (h : String)
    (hlen : cache.length ≤ cache_max_size) :
    (add_to_cache enum cache h).length ≤ cache_max_size := by
  unfold add_to_cache
  dsimp only
  set c := if h ∈ cache then cache else cache ++ [h] with hc
  have hclen : c.length ≤ cache.length + 1 := by
    rw [hc]; split <;> simp
  split
  · have hel : (enum c).length = c.length := (hperm c).length_eq
    simp only [List.length_drop, hel]
    omega
  · rename_i hgt
    omega

/-- The cache after `verify_token` is either unchanged or the result of
one `_add_to_cache` call on the token's hash. -/
lemma verify_token_snd_cases (cfg : SignerConfig)
    (enum : List String → List String) (cache : List String) (now : Nat)
    (t : Token) :
    (verify_token cfg enum cache now t).2 = cache ∨
    (verify_token cfg enum cache now t).2 = add_to_cache enum cache (tokenHash t) := by
  unfold verify_token
  dsimp only
  cases t with
  | malformed raw => exact Or.inl rfl
  | signed p secret =>
    dsimp only
    by_cases hs : secret ≠ cfg.secret_key
    · rw [if_pos hs]; exact Or.inl rfl
    · rw [if_neg hs]
      by_cases h1 : nbf_rejects p now = true
      · rw [if_pos h1]; exact Or.inl rfl
      · rw [if_neg h1]
        by_cases h2 : exp_rejects p now = true
        · rw [if_pos h2]; exact Or.inl rfl
        · rw [if_neg h2]
          by_cases hm : tokenHash (Token.signed p secret) ∈ cache
          · rw [if_pos hm]; exact Or.inl rfl
          · rw [if_neg hm]; exact Or.inr rfl

/-! ## Claim theorems -/

/-- **C1.** For every URL `u` and any metadata, verifying the token
produced by `sign_url(u)` while it is within its validity window returns
`u`, and a second `verify_token` call on the identical token returns
invalid (`None`) because the token's content-hash was recorded in the
replay cache by the first verification.  (Stated for any cache state
that does not already contain the fresh token's hash and is below the
size cap, so that the just-recorded hash is not immediately evicted;
both verification times lie in the validity window.) -/
theorem C1_sign_verify_roundtrip_replay (cfg : SignerConfig)
    (enum : List String → List String) (cache : List String) (url : String)
    (metadata : List (String × String)) (t0 n1 n2 : Nat)
    (hfresh : tokenHash (sign_url cfg t0 url metadata) ∉ cache)
    (hcap : cache.length < cache_max_size)
    (hw1 : t0 ≤ n1) (hw1e : n1 < t0 + 60 * cfg.token_expire_minutes)
    (hw2 : t0 ≤ n2) (hw2e : n2 < t0 + 60 * cfg.token_expire_minutes) :
    (verify_token cfg enum cache n1 (sign_url cfg t0 url metadata)).1 = some url ∧
    (verify_token cfg enum
        (verify_token cfg enum cache n1 (sign_url cfg t0 url metadata)).2 n2
        (sign_url cfg t0 url metadata)).1 = Option.none := by
  set pl : Payload :=
    { url := some url, exp := some (t0 + 60 * cfg.token_expire_minutes),
      iat := some t0, nbf := some t0, jti := generate_token_id url (t0 * 1000),
      metadata := metadata } with hpl
  have hsign : sign_url cfg t0 url metadata = Token.signed pl cfg.secret_key := rfl
  rw [hsign] at hfresh ⊢
  have h1 := verify_token_success cfg enum cache n1 pl
    (t0 + 60 * cfg.token_expire_minutes) t0 t0 rfl rfl rfl hw1e hw1 hfresh
  have hadd := add_to_cache_below_cap enum cache
    (tokenHash (Token.signed pl cfg.secret_key)) hfresh hcap
  have hmem2 : tokenHash (Token.signed pl cfg.secret_key) ∈
      cache ++ [tokenHash (Token.signed pl cfg.secret_key)] :=
    List.mem_append_right _ (by simp)
  have h2 := verify_token_replay cfg enum
    (cache ++ [tokenHash (Token.signed pl cfg.secret_key)]) n2 pl
    (t0 + 60 * cfg.token_expire_minutes) t0 t0 rfl rfl rfl hw2e hw2 hmem2
  constructor
  · rw [h1]
  · rw [h1, hadd, h2]

/-- Witness for C1 at a concrete input (default config, empty cache). -/
theorem C1_witness :
    (verify_token cfgDefault id [] 10
        (sign_url cfgDefault 0 "http://example.com/v.mp4" [])).1 =
      some "http://example.com/v.mp4" ∧
    (verify_token cfgDefault id
        (verify_token cfgDefault id [] 10
          (sign_url cfgDefault 0 "http://example.com/v.mp4" [])).2 11
        (sign_url cfgDefault 0 "http://example.com/v.mp4" [])).1 = Option.none :=
  C1_sign_verify_roundtrip_replay cfgDefault id [] "http://example.com/v.mp4" []
    0 10 11 (by decide) (by decide) (by decide) (by decide) (by decide) (by decide)

/-- **C8.** A token whose `exp` claim lies strictly in the past is
rejected by `verify_token`, even when its hash is absent from the replay
cache (for any signature/payload). -/
theorem C8_expired_token_rejected (cfg : SignerConfig)
    (enum : List String → List String) (cache : List String) (now : Nat)
    (p : Payload) (secret : String) (e : Nat)
    (_hnot : tokenHash (Token.signed p secret) ∉ cache)
    (hexp : p.exp = some e) (hpast : e < now) :
    (verify_token cfg enum cache now (Token.signed p secret)).1 = Option.none := by
  have hexpr : exp_rejects p now = true := by
    simp only [exp_rejects, hexp, decide_eq_true_eq]
    omega
  unfold verify_token
  dsimp only
  by_cases hs : secret ≠ cfg.secret_key
  · rw [if_pos hs]
  · rw [if_neg hs]
    by_cases hnb : nbf_rejects p now = true
    · rw [if_pos hnb]
    · rw [if_neg hnb, if_pos hexpr]

/-- Witness for C8: a token that expired at `t = 1800`, verified at
`t = 1801`, fresh cache. -/
theorem C8_witness :
    (verify_token cfgDefault id [] 1801
      (Token.signed
        { url := some "http://example.com/v.mp4", exp := some 1800,
          iat := some 0, nbf := some 0, jti := "j", metadata := [] }
        cfgDefault.secret_key)).1 = Option.none :=
  C8_expired_token_rejected cfgDefault id [] 1801 _ _ 1800
    (by decide) (by decide) (by decide)

/-- **C10, counterexample.**  The claim fails in two ways.
(i) A well-signed, in-window token that merely lacks a `url` claim
reaches `_add_to_cache` and then returns `payload.get('url')`, which is
`None`: the call returns invalid *and* mutates the cache.
(ii) "Missing required claims" is not a rejection at all: the code
passes PyJWT 1.x-style `require_exp`/`require_iat`/`require_nbf`
options, which PyJWT 2.x (required by this program) silently ignores —
a well-signed token missing all of `exp`/`iat`/`nbf` is accepted, its
hash cached, and its URL returned. -/
theorem C10_counterexample_cache_mutated_on_invalid :
    (verify_token cfgDefault id [] 50
        (Token.signed
          { url := Option.none, exp := some 100, iat := some 0,
            nbf := some 0, jti := "j", metadata := [] }
          cfgDefault.secret_key)).1 = Option.none ∧
    (verify_token cfgDefault id [] 50
        (Token.signed
          { url := Option.none, exp := some 100, iat := some 0,
            nbf := some 0, jti := "j", metadata := [] }
          cfgDefault.secret_key)).2 ≠ ([] : List String) ∧
    (verify_token cfgDefault id [] 50
        (Token.signed
          { url := some "http://example.com/v.mp4", exp := Option.none,
            iat := Option.none, nbf := Option.none, jti := "j", metadata := [] }
          cfgDefault.secret_key)).1 = some "http://example.com/v.mp4" ∧
    (verify_token cfgDefault id [] 50
        (Token.signed
          { url := some "http://example.com/v.mp4", exp := Option.none,
            iat := Option.none, nbf := Option.none, jti := "j", metadata := [] }
          cfgDefault.secret_key)).2 ≠ ([] : List String) := by
  refine ⟨by decide, by decide, by decide, by decide⟩

/-- **C10, amended.**  For a bad signature, a malformed token, a
present-but-expired `exp`, a present-but-future `nbf`, or a detected
replay, the replay cache is left unchanged.  Missing `exp`/`iat`/`nbf`
claims are NOT rejected (the `require_*` option keys are PyJWT 1.x API,
inert under the PyJWT 2.x this program runs on): a well-signed token
missing them is treated like any other in-window token, its hash is
inserted, and its `url` claim returned.  Whenever the cache changes, the
token was well-signed, passed the per-claim `nbf`/`exp` validations with
its hash not yet cached, and the hash was inserted via `_add_to_cache`
immediately before `payload.get('url')` was returned — the URL for every
token minted by `sign_url`, but `None` for a well-signed token lacking a
`url` claim (counterexample (i)). -/
theorem C10_cache_mutation_discipline (cfg : SignerConfig)
    (enum : List String → List String) (cache : List String) (now : Nat) :
    (∀ raw, verify_token cfg enum cache now (Token.malformed raw) =
      (Option.none, cache)) ∧
    (∀ p secret, secret ≠ cfg.secret_key →
      verify_token cfg enum cache now (Token.signed p secret) =
        (Option.none, cache)) ∧
    (∀ p secret e, p.exp = some e → e ≤ now →
      verify_token cfg enum cache now (Token.signed p secret) =
        (Option.none, cache)) ∧
    (∀ p secret nb, p.nbf = some nb → now < nb →
      verify_token cfg enum cache now (Token.signed p secret) =
        (Option.none, cache)) ∧
    (∀ t, tokenHash t ∈ cache →
      verify_token cfg enum cache now t = (Option.none, cache)) ∧
    (∀ p, tokenHash (Token.signed p cfg.secret_key) ∉ cache →
      p.exp = Option.none → p.nbf = Option.none →
      verify_token cfg enum cache now (Token.signed p cfg.secret_key) =
        (p.url, add_to_cache enum cache
          (tokenHash (Token.signed p cfg.secret_key)))) ∧
    (∀ t, (verify_token cfg enum cache now t).2 ≠ cache →
      ∃ p, t = Token.signed p cfg.secret_key ∧
        tokenHash t ∉ cache ∧
        verify_token cfg enum cache now t =
          (p.url, add_to_cache enum cache (tokenHash t))) := by
  refine ⟨?_, ?_, ?_, ?_, ?_, ?_, ?_⟩
  · intro raw
    simp [verify_token]
  · intro p secret hs
    unfold verify_token
    dsimp only
    simp [hs]
  · intro p secret e he hle
    have hexpr : exp_rejects p now = true := by
      simp only [exp_rejects, he, decide_eq_true_eq]
      omega
    unfold verify_token
    dsimp only
    by_cases hs : secret ≠ cfg.secret_key
    · rw [if_pos hs]
    · rw [if_neg hs]
      by_cases hnb : nbf_rejects p now = true
      · rw [if_pos hnb]
      · rw [if_neg hnb, if_pos hexpr]
  · intro p secret nb hn hlt
    have hnbr : nbf_rejects p now = true := by
      simp only [nbf_rejects, hn, decide_eq_true_eq]
      omega
    unfold verify_token
    dsimp only
    by_cases hs : secret ≠ cfg.secret_key
    · rw [if_pos hs]
    · rw [if_neg hs, if_pos hnbr]
  · intro t hmem
    unfold verify_token
    dsimp only
    cases t with
    | malformed raw => rfl
    | signed p secret =>
      dsimp only
      by_cases hs : secret ≠ cfg.secret_key
      · rw [if_pos hs]
      · rw [if_neg hs]
        by_cases h1 : nbf_rejects p now = true
        · rw [if_pos h1]
        · rw [if_neg h1]
          by_cases h2 : exp_rejects p now = true
          · rw [if_pos h2]
          · rw [if_neg h2, if_pos hmem]
  · intro p hmem hexp hnbf
    have h1 : nbf_rejects p now = false := by
      simp [nbf_rejects, hnbf]
    have h2 : exp_rejects p now = false := by
      simp [exp_rejects, hexp]
    exact verify_token_accepts cfg enum cache now p h1 h2 hmem
  · intro t hchanged
    cases t with
    | malformed raw => exact absurd (by simp [verify_token]) hchanged
    | signed p secret =>
      by_cases hs : secret = cfg.secret_key
      · subst hs
        unfold verify_token at hchanged
        dsimp only at hchanged
        rw [if_neg (fun hcon => hcon rfl)] at hchanged
        by_cases h1 : nbf_rejects p now = true
        · rw [if_pos h1] at hchanged
          simp at hchanged
        · rw [if_neg h1] at hchanged
          by_cases h2 : exp_rejects p now = true
          · rw [if_pos h2] at hchanged
            simp at hchanged
          · rw [if_neg h2] at hchanged
            by_cases hm : tokenHash (Token.signed p cfg.secret_key) ∈ cache
            · rw [if_pos hm] at hchanged
              simp at hchanged
            · exact ⟨p, rfl, hm,
                verify_token_accepts cfg enum cache now p
                  (by simpa using h1) (by simpa using h2) hm⟩
      · refine absurd ?_ hchanged
        have hbad : verify_token cfg enum cache now (Token.signed p secret) =
            (Option.none, cache) := by
          unfold verify_token
          dsimp only
          simp [hs]
        rw [hbad]

/-- Witness for C10's amended theorem: a well-signed token missing all
of `exp`/`iat`/`nbf` is accepted and its hash recorded (the PyJWT 2.x
behavior the amendment describes), starting from an empty cache. -/
theorem C10_witness :
    verify_token cfgDefault id [] 50
      (Token.signed
        { url := some "http://example.com/v.mp4", exp := Option.none,
          iat := Option.none, nbf := Option.none, jti := "j", metadata := [] }
        cfgDefault.secret_key) =
      (some "http://example.com/v.mp4",
        add_to_cache id []
          (tokenHash (Token.signed
            { url := some "http://example.com/v.mp4", exp := Option.none,
              iat := Option.none, nbf := Option.none, jti := "j", metadata := [] }
            cfgDefault.secret_key))) :=
  (C10_cache_mutation_discipline cfgDefault id [] 50).2.2.2.2.2.1 _
    (by decide) rfl rfl

/-- **C5, counterexample.**  The claim says that when the cap is
exceeded, the eviction retains exactly the most-recently-inserted 1000
entries, insertion order governing survival.  The code computes
`list(self.verified_cache)[-1000:]` on a `set`, whose iteration order is
hash-based and unspecified, not insertion order.  With a full cache of
1000 distinct hashes and iteration order reversing this model's
insertion-ordered representation (a legitimate permutation of the set's
elements), the newly inserted hash `"x"` is the one that gets evicted —
the exact opposite of the claimed retention —
so the surviving entries differ from the 1000 most recently inserted
ones (`(bigCache ++ ["x"]).drop 1`, which contains `"x"`). -/
theorem C5_counterexample_eviction_not_insertion_order :
    bigCache.Nodup ∧
    (∀ l : List String, (List.reverse l).Perm l) ∧
    "x" ∉ bigCache ∧
    "x" ∉ add_to_cache List.reverse bigCache "x" ∧
    add_to_cache List.reverse bigCache "x" ≠ (bigCache ++ ["x"]).drop 1 := by
  have hinj : Function.Injective (fun n : Nat => String.mk (List.replicate (n + 1) 'a')) := by
    intro a b hab
    have hd := congrArg String.data hab
    simpa using hd
  have hnodup : bigCache.Nodup := (List.nodup_range _).map hinj
  have hxmem : "x" ∉ bigCache := by
    intro hx
    obtain ⟨n, _, hn⟩ := List.mem_map.mp hx
    have hd := congrArg String.data hn
    have : List.replicate (n + 1) 'a' = ['x'] := by simpa using hd
    rw [List.replicate_succ] at this
    have := List.head_eq_of_cons_eq this
    exact absurd this (by decide)
  have hlen : bigCache.length = cache_max_size := by
    simp [bigCache]
  have hval : add_to_cache List.reverse bigCache "x" = bigCache.reverse := by
    unfold add_to_cache
    rw [if_neg hxmem]
    have hlen1 : (bigCache ++ ["x"]).length = cache_max_size + 1 := by
      simp [hlen]
    rw [if_pos (by rw [hlen1]; omega)]
    rw [hlen1]
    have hdrop : cache_max_size + 1 - cache_max_size = 1 := by omega
    rw [hdrop]
    simp
  have hxnot : "x" ∉ add_to_cache List.reverse bigCache "x" := by
    rw [hval]
    simpa using hxmem
  refine ⟨hnodup, fun l => List.reverse_perm l, hxmem, hxnot, ?_⟩
  intro heq
  have hxin : "x" ∈ (bigCache ++ ["x"]).drop 1 := by
    rw [List.drop_append_of_le_length (by rw [hlen]; decide)]
    exact List.mem_append_right _ (by simp)
  rw [← heq] at hxin
  exact hxnot hxin

/-- **C5, amended.**  After any `verify_token` call on a cache within the
cap, the cache is still within the cap (at most 1000 entries); when an
insertion exceeds the cap, exactly `cache_max_size` entries survive; but
the survivors are the trailing 1000 entries of the set's iteration order
(`enum`), which is not insertion order (see the counterexample). -/
theorem C5_cache_bounded (enum : List String → List String)
    (hperm : ∀ l, (enum l).Perm l) :
    (∀ cfg cache now t, cache.length ≤ cache_max_size →
      ((verify_token cfg enum cache now t).2).length ≤ cache_max_size) ∧
    (∀ cache h, cache.length ≤ cache_max_size →
      (add_to_cache enum cache h).length ≤ cache_max_size) ∧
    (∀ (cache : List String) (h : String), h ∉ cache →
      cache.length = cache_max_size →
      add_to_cache enum cache h = (enum (cache ++ [h])).drop 1 ∧
      (add_to_cache enum cache h).length = cache_max_size) := by
  refine ⟨?_, ?_, ?_⟩
  · intro cfg cache now t hlen
    rcases verify_token_snd_cases cfg enum cache now t with h | h
    · rw [h]; exact hlen
    · rw [h]; exact add_to_cache_length_le enum hperm cache _ hlen
  · intro cache h hlen
    exact add_to_cache_length_le enum hperm cache h hlen
  · intro cache h hmem hlen
    have hlen1 : (cache ++ [h]).length = cache_max_size + 1 := by simp [hlen]
    have hval : add_to_cache enum cache h = (enum (cache ++ [h])).drop 1 := by
      unfold add_to_cache
      rw [if_neg hmem]
      rw [if_pos (by rw [hlen1]; omega)]
      rw [hlen1]
      have hdrop : cache_max_size + 1 - cache_max_size = 1 := by omega
      rw [hdrop]
    refine ⟨hval, ?_⟩
    rw [hval]
    have hel : (enum (cache ++ [h])).length = cache_max_size + 1 := by
      rw [(hperm (cache ++ [h])).length_eq, hlen1]
    simp [hel]

/-- Witness for C5's amended theorem: a singleton cache stays within the
cap across a verification. -/
theorem C5_witness :
    ((verify_token cfgDefault id ["somehash"] 10
      (sign_url cfgDefault 0 "http://example.com/v.mp4" [])).2).length ≤
      cache_max_size :=
  (C5_cache_bounded id (fun l => by simp)).1 cfgDefault ["somehash"] 10
    (sign_url cfgDefault 0 "http://example.com/v.mp4" []) (by decide)

/-- **C2, counterexample.**  The claim says a valid token is answered
with the origin asset's body relayed in 1 MiB chunks with
`Content-Disposition: attachment` and
`Content-Type: application/octet-stream`.  The handler instead issues
`RedirectResponse(url, status_code=302)`: at a concrete freshly signed
token the response is a 302 redirect and not a streamed attachment. -/
theorem C2_counterexample_redirect_not_stream :
    (download_media cfgDefault id [] 10
        (sign_url cfgDefault 0 "http://example.com/a.mp4" [])).1 =
      DLResponse.redirect "http://example.com/a.mp4" 302 ∧
    ¬ ∃ n f c, (download_media cfgDefault id [] 10
        (sign_url cfgDefault 0 "http://example.com/a.mp4" [])).1 =
      DLResponse.streamAttachment n f c := by
  have hred : (download_media cfgDefault id [] 10
      (sign_url cfgDefault 0 "http://example.com/a.mp4" [])).1 =
      DLResponse.redirect "http://example.com/a.mp4" 302 := by decide
  refine ⟨hred, ?_⟩
  rintro ⟨n, f, c, hstream⟩
  rw [hred] at hstream
  exact DLResponse.noConfusion hstream

/-- **C2, amended.**  For every token that verifies to a non-empty URL,
`GET /download/{token}` responds with a 302 redirect to that URL (no
body is streamed and no attachment headers are set); the replay cache is
the one `verify_token` produced. -/
theorem C2_valid_token_redirects (cfg : SignerConfig)
    (enum : List String → List String) (cache : List String) (now : Nat)
    (t : Token) (url : String)
    (hv : (verify_token cfg enum cache now t).1 = some url)
    (hne : url ≠ "") :
    download_media cfg enum cache now t =
      (DLResponse.redirect url 302, (verify_token cfg enum cache now t).2) := by
  unfold download_media
  rcases hval : verify_token cfg enum cache now t with ⟨r, c⟩
  rw [hval] at hv
  simp only at hv
  subst hv
  have hemp : pyStrEmpty url = false := by
    cases hu : pyStrEmpty url
    · rfl
    · exact absurd (by simpa [pyStrEmpty] using hu) hne
  simp [hemp]

/-- Witness for C2's amended theorem at a concrete signed token. -/
theorem C2_witness :
    download_media cfgDefault id [] 10
        (sign_url cfgDefault 0 "http://example.com/a.mp4" []) =
      (DLResponse.redirect "http://example.com/a.mp4" 302,
        (verify_token cfgDefault id [] 10
          (sign_url cfgDefault 0 "http://example.com/a.mp4" [])).2) :=
  C2_valid_token_redirects cfgDefault id [] 10
    (sign_url cfgDefault 0 "http://example.com/a.mp4" [])
    "http://example.com/a.mp4" (by decide) (by decide)

/-- **C3 (code bug).**  The claim (and the spec) say an invalid, expired
or replayed token is answered with status 403 or 404, never any other
status.  The handler raises `HTTPException(404, "Invalid or expired
token")`, but its own `except Exception as e` catches that
`HTTPException` (a subclass of `Exception`) and re-raises
`HTTPException(400, str(e))`, so the client actually receives **400**
(with the generic message inside the detail string). -/
theorem C3_invalid_token_yields_400 :
    (download_media cfgDefault id [] 0 (Token.malformed "not-a-jwt")).1 =
      DLResponse.httpError 400 "404: Invalid or expired token" ∧
    (download_media cfgDefault id [] 1801
        (sign_url cfgDefault 0 "http://example.com/a.mp4" [])).1 =
      DLResponse.httpError 400 "404: Invalid or expired token" ∧
    (400 : Nat) ≠ 403 ∧ (400 : Nat) ≠ 404 := by
  refine ⟨by decide, by decide, by decide, by decide⟩

/-- **C6.**  Every format dict produced by `_process_formats` carries a
truthy (present and non-empty) `url` value: raw records with a missing
or empty URL are skipped by the `if not fmt.get('url'): continue` guard,
the kept records' `url` survives the `None`-dropping comprehension, and
the synthesized `'direct'` descriptor is only built when
`info.get('url')` is truthy. -/
theorem C6_normalizer_urls_nonempty (info : Info) :
    ∀ d ∈ process_formats info, ∃ v, dget d "url" = some v ∧ v.truthy = true := by
  intro d hd
  unfold process_formats at hd
  dsimp only at hd
  split at hd
  · rename_i hcond
    simp only [List.mem_singleton] at hd
    subst hd
    have htruthy : (igetD info.url Val.none).truthy = true := by
      simp only [Bool.and_eq_true] at hcond
      exact hcond.2
    refine ⟨igetD info.url Val.none, ?_, htruthy⟩
    simp [direct_format, dget, List.find?_cons]
  · obtain ⟨fmt, hfmt, rfl⟩ := List.mem_map.mp hd
    have htruthy : (dgetN fmt "url").truthy = true := (List.mem_filter.mp hfmt).2
    refine ⟨dgetN fmt "url", ?_, htruthy⟩
    apply dget_cleanNone_of_unique
    · simp [dget, List.find?_cons]
    · exact Val.ne_none_of_truthy htruthy
    · intro p hp hpk
      simp only [List.mem_cons, List.not_mem_nil, or_false] at hp
      rcases hp with rfl | rfl | rfl | rfl | rfl | rfl | rfl | rfl | rfl | rfl <;>
        simp_all

/-- Witness for C6: the `'direct'` descriptor synthesized for
`infoDirect` has a truthy URL. -/
theorem C6_witness :
    ∃ v, dget [("format_id", Val.str "direct"), ("ext", Val.str "mp4"),
        ("url", Val.str "http://a/b.mp4"), ("quality", Val.str "best"),
        ("resolution", Val.str "unknown")] "url" = some v ∧ v.truthy = true :=
  C6_normalizer_urls_nonempty infoDirect _ (by decide)

/-- **C9.**  No dict produced by `_process_formats` has a `'height'` key
(the ten fixed keys of `format_info` and the five of the `'direct'`
descriptor do not include it), so inside `resolve` a numeric quality
preference always finds `filtered == []` and `_filter_by_quality`
returns the normalized list unchanged — the distance ranking is never
exercised on normalized output. -/
theorem C9_no_height_after_normalize :
    (∀ (info : Info), ∀ d ∈ process_formats info, dget d "height" = Option.none) ∧
    (∀ (info : Info) (q : String) (target : Int), pyStrEmpty q = false →
      pyIntParse (normalizeQuality q) = some target →
      (process_formats info).filter heightOk = [] ∧
      filter_by_quality (process_formats info) q = process_formats info) := by
  have part1 : ∀ (info : Info), ∀ d ∈ process_formats info,
      dget d "height" = Option.none := by
    intro info d hd
    unfold process_formats at hd
    dsimp only at hd
    split at hd
    · simp only [List.mem_singleton] at hd
      subst hd
      simp [direct_format, dget, List.find?_cons]
    · obtain ⟨fmt, hfmt, rfl⟩ := List.mem_map.mp hd
      apply dget_cleanNone_none
      simp [dget, List.find?_cons]
  refine ⟨part1, ?_⟩
  intro info q target hq hparse
  have hfil : (process_formats info).filter heightOk = [] := by
    rw [List.filter_eq_nil_iff]
    intro d hd
    simp [heightOk, part1 info d hd]
  refine ⟨hfil, ?_⟩
  unfold filter_by_quality
  rw [hq]
  simp only [Bool.false_eq_true, if_false, hparse, hfil]
  rfl

/-- Witness for C9 at `infoDirect` with numeric preference `"720"`. -/
theorem C9_witness :
    (process_formats infoDirect).filter heightOk = [] ∧
    filter_by_quality (process_formats infoDirect) "720" = process_formats infoDirect :=
  C9_no_height_after_normalize.2 infoDirect "720" 720 (by decide) (by decide)

/-- **C7.**  `_filter_by_quality` never widens (output length ≤ input
length); on a numeric preference it keeps only height-bearing formats,
returns at most the 5 closest to the requested height in ascending
distance order with ties in original order (the list is the 5-prefix of
the stable sort of the height-bearing sublist by distance), returns the
input unchanged when no format carries a height; and returns the input
unchanged on an unrecognized preference.  The `hints` hypothesis
restricts to inputs whose `height` values are integers, on which the
Python sort key does not raise `TypeError`. -/
theorem C7_quality_selector (formats : List Dict) (quality : String)
    (_hints : ∀ d ∈ formats, heightInt d = true) :
    ((filter_by_quality formats quality).length ≤ formats.length) ∧
    (∀ target : Int, pyStrEmpty quality = false →
      pyIntParse (normalizeQuality quality) = some target →
      (formats.filter heightOk ≠ [] →
        (filter_by_quality formats quality).length ≤ 5 ∧
        (∀ d ∈ filter_by_quality formats quality, heightOk d = true) ∧
        ∃ s : List Dict,
          filter_by_quality formats quality = s.take 5 ∧
          s.Perm (formats.filter heightOk) ∧
          s.Pairwise (fun a b => heightDist target a ≤ heightDist target b) ∧
          (∀ a b : Dict, [a, b].Sublist (formats.filter heightOk) →
            heightDist target a ≤ heightDist target b → [a, b].Sublist s)) ∧
      (formats.filter heightOk = [] → filter_by_quality formats quality = formats)) ∧
    (∀ q, q = normalizeQuality quality → pyStrEmpty quality = false →
      pyIntParse q = Option.none →
      q ≠ "best" → q ≠ "worst" → q ≠ "audio" → q ≠ "video" →
      filter_by_quality formats quality = formats) := by
  refine ⟨?_, ?_, ?_⟩
  · unfold filter_by_quality
    dsimp only
    split
    · exact Nat.le_refl _
    · split
      · split
        · exact Nat.le_refl _
        · have h2 := List.length_filter_le heightOk formats
          simp only [List.length_take, List.length_mergeSort]
          omega
      · split
        · exact List.length_filter_le _ _
        · split
          · exact List.length_filter_le _ _
          · split
            · exact List.length_filter_le _ _
            · split
              · exact List.length_filter_le _ _
              · exact Nat.le_refl _
  · intro target hqe hparse
    have htrans : ∀ a b c : Dict,
        (decide (heightDist target a ≤ heightDist target b)) = true →
        (decide (heightDist target b ≤ heightDist target c)) = true →
        (decide (heightDist target a ≤ heightDist target c)) = true := by
      intro a b c hab hbc
      simp only [decide_eq_true_eq] at *
      omega
    have htotal : ∀ a b : Dict,
        ((decide (heightDist target a ≤ heightDist target b)) ||
          (decide (heightDist target b ≤ heightDist target a))) = true := by
      intro a b
      simp only [Bool.or_eq_true, decide_eq_true_eq]
      omega
    constructor
    · intro hfne
      have hie : (formats.filter heightOk).isEmpty = false := by
        cases hfe : formats.filter heightOk
        · exact absurd hfe hfne
        · rfl
      have heq : filter_by_quality formats quality =
          ((formats.filter heightOk).mergeSort
            (fun a b => heightDist target a ≤ heightDist target b)).take 5 := by
        unfold filter_by_quality
        rw [hqe]
        simp only [Bool.false_eq_true, if_false, hparse, hie]
      have hsort := List.sorted_mergeSort htrans htotal (formats.filter heightOk)
      refine ⟨?_, ?_, ?_⟩
      · rw [heq]
        simp only [List.length_take]
        omega
      · intro d hd
        rw [heq] at hd
        have hms := List.mem_of_mem_take hd
        have hmem := List.mem_mergeSort.mp hms
        exact (List.mem_filter.mp hmem).2
      · refine ⟨(formats.filter heightOk).mergeSort
          (fun a b => heightDist target a ≤ heightDist target b), heq,
          List.mergeSort_perm _ _, ?_, ?_⟩
        · exact hsort.imp (fun hab => by simpa using hab)
        · intro a b hsub hdist
          exact List.sublist_mergeSort htrans htotal
            (by simp [List.pairwise_cons, hdist]) hsub
    · intro hfe
      have hie : (formats.filter heightOk).isEmpty = true := by
        rw [hfe]; rfl
      unfold filter_by_quality
      rw [hqe]
      simp only [Bool.false_eq_true, if_false, hparse, hie]
      rfl
  · intro q hqdef hqe hparse hbest hworst haud hvid
    subst hqdef
    unfold filter_by_quality
    rw [hqe]
    simp only [Bool.false_eq_true, if_false, hparse]
    rw [if_neg hbest, if_neg hworst, if_neg haud, if_neg hvid]

/-- Witness for C7 on four concrete formats and preference `"720p"`:
the numeric path keeps the three height-bearing ones, closest first. -/
theorem C7_witness :
    ((filter_by_quality
        [[("height", Val.int 1080)], [("height", Val.int 480)],
          [("height", Val.int 720)], [("x", Val.int 1)]] "720p").length ≤ 4) ∧
    (∀ target : Int, pyStrEmpty "720p" = false →
      pyIntParse (normalizeQuality "720p") = some target →
      (([[("height", Val.int 1080)], [("height", Val.int 480)],
          [("height", Val.int 720)], [("x", Val.int 1)]].filter heightOk) ≠ [] →
        (filter_by_quality
          [[("height", Val.int 1080)], [("height", Val.int 480)],
            [("height", Val.int 720)], [("x", Val.int 1)]] "720p").length ≤ 5 ∧
        (∀ d ∈ filter_by_quality
            [[("height", Val.int 1080)], [("height", Val.int 480)],
              [("height", Val.int 720)], [("x", Val.int 1)]] "720p",
          heightOk d = true) ∧
        ∃ s : List Dict,
          filter_by_quality
            [[("height", Val.int 1080)], [("height", Val.int 480)],
              [("height", Val.int 720)], [("x", Val.int 1)]] "720p" = s.take 5 ∧
          s.Perm ([[("height", Val.int 1080)], [("height", Val.int 480)],
              [("height", Val.int 720)], [("x", Val.int 1)]].filter heightOk) ∧
          s.Pairwise (fun a b => heightDist target a ≤ heightDist target b) ∧
          (∀ a b : Dict,
            [a, b].Sublist ([[("height", Val.int 1080)], [("height", Val.int 480)],
              [("height", Val.int 720)], [("x", Val.int 1)]].filter heightOk) →
            heightDist target a ≤ heightDist target b → [a, b].Sublist s)) ∧
      (([[("height", Val.int 1080)], [("height", Val.int 480)],
          [("height", Val.int 720)], [("x", Val.int 1)]].filter heightOk) = [] →
        filter_by_quality
          [[("height", Val.int 1080)], [("height", Val.int 480)],
            [("height", Val.int 720)], [("x", Val.int 1)]] "720p" =
          [[("height", Val.int 1080)], [("height", Val.int 480)],
            [("height", Val.int 720)], [("x", Val.int 1)]])) := by
  have h := C7_quality_selector
    [[("height", Val.int 1080)], [("height", Val.int 480)],
      [("height", Val.int 720)], [("x", Val.int 1)]] "720p" (by decide)
  exact ⟨h.1, h.2.1⟩

/-- **C4, counterexample.**  The claim says that on *every* success path
(backend or fallback) the raw result is passed through the Normalizer
(`_process_formats`) and then the Quality Selector.  In the code, both
fallback branches `return await self._generic_resolve(url)` directly:
the fallback's formats are never re-processed.  With a failing backend
and a fallback that yields one `<video><source>` record, `resolve`
returns the record as-is (5 keys), while the claimed pipeline
(`resolveSpecC4`, modelled from the spec) yields the normalized 10-key
record. -/
theorem C4_counterexample_fallback_not_normalized :
    resolve backendFail fallbackOk "http://e.com/page" Option.none Option.none =
      Except.ok mGeneric ∧
    resolveSpecC4 backendFail fallbackOk "http://e.com/page" Option.none Option.none =
      Except.ok mGenericNormed ∧
    mGenericNormed ≠ mGeneric := by
  refine ⟨rfl, rfl, by decide⟩

/-- **C4, amended.**  When the backend raises or returns no data,
`resolve` invokes the generic fallback on the same URL; if that also
fails, `resolve` fails with `"Failed to resolve URL: "` wrapping the
original backend error (or the fallback's own error when the backend
merely returned no data); on the backend success path the raw result is
passed through the Normalizer and then, when a truthy quality preference
was given, through the Quality Selector — but a fallback success is
returned as-is, without re-normalization or quality filtering. -/
theorem C4_resolve_orchestration
    (backend : Option String → String → Except String (Option Info))
    (fallback : String → Except String MediaOut) (url : String)
    (fp qp : Option String) :
    (∀ info, backend (ydlFormat fp) url = .ok (some info) →
      resolve backend fallback url fp qp =
        .ok (buildResolveOut url info qp)) ∧
    (∀ e m, backend (ydlFormat fp) url = .error e → fallback url = .ok m →
      resolve backend fallback url fp qp = .ok m) ∧
    (∀ m, backend (ydlFormat fp) url = .ok Option.none → fallback url = .ok m →
      resolve backend fallback url fp qp = .ok m) ∧
    (∀ e g, backend (ydlFormat fp) url = .error e → fallback url = .error g →
      resolve backend fallback url fp qp =
        .error ("Failed to resolve URL: " ++ e)) ∧
    (∀ g, backend (ydlFormat fp) url = .ok Option.none → fallback url = .error g →
      resolve backend fallback url fp qp =
        .error ("Failed to resolve URL: " ++ g)) := by
  refine ⟨?_, ?_, ?_, ?_, ?_⟩
  · intro info hb
    unfold resolve
    rw [hb]
    rfl
  · intro e m hb hf
    unfold resolve
    rw [hb]
    unfold pyTryExcept
    rw [hf]
  · intro m hb hf
    unfold resolve
    rw [hb, hf]
    rfl
  · intro e g hb hf
    unfold resolve
    rw [hb]
    unfold pyTryExcept
    rw [hf]
  · intro g hb hf
    unfold resolve
    rw [hb, hf]
    rfl

/-- Witness for C4's amended theorem: the fallback branch at the
concrete failing backend. -/
theorem C4_witness :
    resolve backendFail fallbackOk "http://e.com/page" Option.none Option.none =
      Except.ok mGeneric :=
  (C4_resolve_orchestration backendFail fallbackOk "http://e.com/page"
      Option.none Option.none).2.1 "DownloadError: Unsupported URL" mGeneric
    rfl rfl

end Video
